import Mathlib

/-!
Shallow embedding of stateflow/statefields.py (django-stateflow).

The file under verification defines:
  * `Creator` — a descriptor installed on the model class that coerces every
    write through `field.to_python` and returns stored values verbatim on read;
  * `load_flow` / `resolve_flow` — resolution of a flow reference that is
    either a live `Flow` class or a dotted locator string;
  * `StateFlowField` — the Django field: constructor (rejecting a missing
    flow), `get_prep_value` (outbound conversion), `to_python` (inbound
    conversion), `formfield` (choice enumeration) and `deconstruct`;
  * `StateWidget.render_options` — selected-value normalization for rendering.

The stateclass module (`DjangoState`, `Flow`) is imported by the source but is
not part of the code slice; its capability surface is modelled from the spec
where marked.  Following the design note of the spec, the class/instance dual
representation of a state is modelled as a single `State` value carrying its
token and label.
-/

set_option autoImplicit false

namespace Stateflow

/-- A state: one immutable member of a flow, identified by a storable token
and carrying a human label.  (Unifies the `DjangoState` subclass and its
instances, per the data-model note of the spec.) -/
structure State where
  token : String
  label : String
deriving DecidableEq, Repr

/-- Modelled from the spec: the `State` capability `get_value` returning the
token (the stateclass module is not in the code slice). -/
def State.get_value (s : State) : String :=
  s.token

/-- A flow: an ordered, fixed collection of states declared together.
`name` stands for the class name, used only by `str` on the class. -/
structure Flow where
  name : String
  states : List State
deriving DecidableEq, Repr

/-- Modelled from the spec: `Flow.state_choices` returns the ordered sequence
of (token, label) pairs, insertion order preserved. -/
def Flow.state_choices (f : Flow) : List (String × String) :=
  f.states.map (fun s => (s.token, s.label))

/-- Python exceptions that the embedded code can raise.  `ValueError` carries
its message so that the configuration error of the constructor and the
"substring not found" error of `rindex` stay distinguishable. -/
inductive Err where
  | lookupError
  | valueError (msg : String)
  | importError
  | attributeError
  | keyError
deriving DecidableEq, Repr

/-- A Python value as it can flow through the field: `None`, a raw string,
a state, or some other non-state non-string object (represented by an `Int`
stand-in). -/
inductive Value where
  | none
  | str (s : String)
  | state (st : State)
  | intV (n : Int)
deriving DecidableEq, Repr

/-- Python `str(value)` for the values that can reach the fallback branch of
`get_prep_value` (states never do: they are intercepted by the `issubclass`
test). -/
def strOfValue : Value → String
  | .none => "None"
  | .str s => s
  | .state st => "<DjangoState " ++ st.token ++ ">"
  | .intV n => toString n

/-- Modelled from the spec: `Flow.get_state` maps a token to its canonical
state and fails with `LookupError` if the token is unknown.  Any value that
is not a declared token (including `None` or a non-string) fails the
lookup. -/
def Flow.get_state (f : Flow) (v : Value) : Except Err State :=
  match v with
  | .str t =>
    match f.states.find? (fun s => s.token == t) with
    | some s => .ok s
    | Option.none => .error .lookupError
  | _ => .error .lookupError

/-- Well-formedness of a flow per the data model of the spec: each state is
identified by its token, so declared tokens are pairwise distinct. -/
@[reducible] def Flow.WF (f : Flow) : Prop :=
  (f.states.map State.token).Nodup

/-- A flow reference: a live `Flow` class, a locator string, or any other
object (a non-class, non-string reference; `Int` stand-in). -/
inductive FlowRef where
  | cls (f : Flow)
  | strRef (s : String)
  | other (n : Int)
deriving DecidableEq, Repr

/-- Python `str(flow_class)` — the textual representation of a class. -/
def strOfFlowCls (f : Flow) : String :=
  "<class " ++ f.name ++ ">"

/-- The string Python would pair with a reference in the non-class branch of
`resolve_flow` (only ever produced for `strRef`, where it is the locator
itself). -/
def FlowRef.asStr : FlowRef → String
  | .cls f => strOfFlowCls f
  | .strRef s => s
  | .other n => toString n

/-- The `rindex` method of Python strings: index of the last occurrence of
`c`, `none` if absent (the caller turns `none` into a `ValueError`). -/
def rindex (cs : List Char) (c : Char) : Option Nat :=
  match cs with
  | [] => Option.none
  | a :: rest =>
    match rindex rest c with
    | some i => some (i + 1)
    | Option.none => if a = c then some 0 else Option.none

/-- The dynamic-import environment consumed by `load_flow`: a table of
modules, each a table of attribute-name/flow pairs. -/
structure ImportEnv where
  modules : List (String × List (String × Flow))
deriving DecidableEq, Repr

/-- Python `import_module` on the environment: `ImportError` when the module
is unknown. -/
def ImportEnv.import_module (env : ImportEnv) (mod_name : String) :
    Except Err (List (String × Flow)) :=
  match env.modules.find? (fun p => p.1 == mod_name) with
  | some p => .ok p.2
  | Option.none => .error .importError

/-- Python `getattr` on a module: `AttributeError` when the symbol is
absent. -/
def getattrFlow (mod : List (String × Flow)) (cls_name : String) :
    Except Err Flow :=
  match mod.find? (fun p => p.1 == cls_name) with
  | some p => .ok p.2
  | Option.none => .error .attributeError

/-- Source `load_flow(flow_path)`: split the locator at the last dot via
`rindex` (`ValueError` when there is no dot), import the module, fetch the
symbol. -/
def load_flow (env : ImportEnv) (flow_path : String) : Except Err Flow :=
  match rindex flow_path.toList '.' with
  | Option.none => .error (.valueError "substring not found")
  | some dot => do
    let mod_name := String.mk (flow_path.toList.take dot)
    let cls_name := String.mk (flow_path.toList.drop (dot + 1))
    let mod ← env.import_module mod_name
    getattrFlow mod cls_name

/-- How `load_flow` is actually invoked by the fall-through branch of
`resolve_flow`: on a non-string reference, the attribute access `.rindex`
itself fails with `AttributeError`. -/
def load_flow_ref (env : ImportEnv) (ref : FlowRef) : Except Err Flow :=
  match ref with
  | .strRef s => load_flow env s
  | _ => .error .attributeError

/-- Source `resolve_flow(flow_name)`: the `issubclass` test (with its bare
`except` making every non-class fall through) selects the class branch;
otherwise the reference is handed to `load_flow` and paired with itself. -/
def resolve_flow (env : ImportEnv) (ref : FlowRef) :
    Except Err (Flow × String) :=
  match ref with
  | .cls f => .ok (f, strOfFlowCls f)
  | _ => (load_flow_ref env ref).map (fun fl => (fl, ref.asStr))

/-- State of a `StateFlowField` after construction: the resolved flow, its
canonical path, the original constructor argument (kept for `deconstruct`),
and the Django field naming arguments. -/
structure StateFlowField where
  flow : Flow
  flow_path : String
  flow_kwarg : FlowRef
  verbose_name : Option String
  name : Option String
deriving DecidableEq, Repr

/-- Constructor of `StateFlowField` with arguments (verbose_name, name,
flow): raises `ValueError` immediately when the flow is `None`, then
resolves the flow. -/
def StateFlowField.init (env : ImportEnv) (verbose_name nm : Option String)
    (flow : Option FlowRef) : Except Err StateFlowField :=
  match flow with
  | Option.none => .error (.valueError "StateFlowField need to have defined flow")
  | some ref => do
    let (fl, path) ← resolve_flow env ref
    .ok { flow := fl, flow_path := path, flow_kwarg := ref,
          verbose_name := verbose_name, name := nm }

/-- Inbound conversion `to_python`: a value that is already a state is
returned unchanged; anything else goes through `Flow.get_state`. -/
def StateFlowField.to_python (f : StateFlowField) (v : Value) :
    Except Err Value :=
  match v with
  | .state st => .ok (.state st)
  | _ => (f.flow.get_state v).map .state

/-- Outbound conversion `get_prep_value`: `None` maps to `None`, a state
maps to its token via `get_value`, anything else to its `str` form. -/
def StateFlowField.get_prep_value (_f : StateFlowField) (v : Value) :
    Option String :=
  match v with
  | .none => Option.none
  | .state st => some st.get_value
  | w => some (strOfValue w)

/-- The storable scalar handed back by the storage layer, as a `Value`
for the inbound conversion (a `NULL` loads as `None`). -/
def scalarToValue : Option String → Value
  | Option.none => .none
  | some s => .str s

/-- Choice list built by `formfield`: the (None, "----") entry followed by
`Flow.state_choices`. -/
def StateFlowField.formfield_choices (f : StateFlowField) :
    List (Option String × String) :=
  (Option.none, "----") :: f.flow.state_choices.map (fun p => (some p.1, p.2))

/-- Flow keyword restored by `deconstruct`: the original flow argument. -/
def StateFlowField.deconstruct_flow (f : StateFlowField) : FlowRef :=
  f.flow_kwarg

/-- Private per-instance attribute storage of a record (its `__dict__`),
gated by the descriptor.  Keys are field names (`Option String` because a
Django field carries a `None` name until contributed). -/
abbrev AttrDict := List (Option String × Value)

/-- Dictionary lookup, as a total function returning `Option`. -/
def dictGet (d : AttrDict) (k : Option String) : Option Value :=
  (d.find? (fun p => p.1 == k)).map (fun p => p.2)

/-- Dictionary update: replace any previous binding of `k`. -/
def dictSet (d : AttrDict) (k : Option String) (v : Value) : AttrDict :=
  (k, v) :: d.filter (fun p => p.1 ≠ k)

/-- The `Creator` descriptor: holds only its field. -/
structure Creator where
  field : StateFlowField
deriving DecidableEq, Repr

/-- Write path of the descriptor: store `self.field.to_python(value)` into
the instance storage under the field name — a raised `to_python` error
propagates and nothing is stored. -/
def Creator.set (c : Creator) (obj : AttrDict) (value : Value) :
    Except Err AttrDict :=
  (c.field.to_python value).map (fun coerced => dictSet obj c.field.name coerced)

/-- What the read path of the descriptor can return: the descriptor itself
(class access) or a stored value (instance access). -/
inductive GetResult where
  | descr (c : Creator)
  | val (v : Value)
deriving DecidableEq, Repr

/-- Read path of the descriptor: `self` when the instance is `None`,
otherwise the stored value under the field name (a `KeyError` when never
assigned). -/
def Creator.get (c : Creator) (obj : Option AttrDict) :
    Except Err GetResult :=
  match obj with
  | Option.none => .ok (.descr c)
  | some d =>
    match dictGet d c.field.name with
    | some v => .ok (.val v)
    | Option.none => .error .keyError

/-- Application of `force_unicode` to an option value (`None` renders as
the string "None"). -/
def force_unicode_opt : Option String → String
  | Option.none => "None"
  | some s => s

/-- One rendered option element: its (stringified) value, its label, and
whether it carries the selected attribute. -/
structure RenderedOption where
  value : String
  label : String
  selected : Bool
deriving DecidableEq, Repr

/-- Rendering of options by `StateWidget.render_options`: selected values
are normalized by keeping only `DjangoState` values and reducing them to
their tokens; each option from `chain(self.choices, choices)` is marked
selected by membership of its stringified value in that token set.
(The optgroup branch is dead here: flow choice labels are plain strings.) -/
def StateWidget.render_options (self_choices choices : List (Option String × String))
    (selected_choices : List Value) : List RenderedOption :=
  let sel : List String :=
    selected_choices.filterMap (fun v =>
      match v with
      | .state st => some st.get_value
      | _ => Option.none)
  (self_choices ++ choices).map (fun p =>
    { value := force_unicode_opt p.1
      label := p.2
      selected := decide (force_unicode_opt p.1 ∈ sel) })

/-! ### Concrete fixtures used by witnesses and counterexamples -/

/-- The state with token "draft". -/
def draftState : State := ⟨"draft", "Draft"⟩

/-- The state with token "published". -/
def publishedState : State := ⟨"published", "Published"⟩

/-- A flow declaring only the draft state. -/
def flowA : Flow := ⟨"FlowA", [draftState]⟩

/-- A flow declaring the draft and published states. -/
def flowAB : Flow := ⟨"FlowAB", [draftState, publishedState]⟩

/-- A field over `flowA`, contributed under the attribute name "state". -/
def fieldA : StateFlowField :=
  { flow := flowA, flow_path := strOfFlowCls flowA, flow_kwarg := .cls flowA,
    verbose_name := Option.none, name := some "state" }

/-- A field over `flowAB`, contributed under the attribute name "state". -/
def fieldAB : StateFlowField :=
  { flow := flowAB, flow_path := strOfFlowCls flowAB, flow_kwarg := .cls flowAB,
    verbose_name := Option.none, name := some "state" }

/-- The descriptor installed for `fieldA`. -/
def creatorA : Creator := ⟨fieldA⟩

/-- The descriptor installed for `fieldAB`. -/
def creatorAB : Creator := ⟨fieldAB⟩

/-- An import environment exposing `flowAB` as myapp.flows.PostFlow. -/
def envAB : ImportEnv := ⟨[("myapp.flows", [("PostFlow", flowAB)])]⟩

/-! ### Helper lemmas -/

/-- Reading back the key just written returns the written value. -/
theorem dictGet_dictSet (d : AttrDict) (k : Option String) (v : Value) :
    dictGet (dictSet d k v) k = some v := by
  simp [dictGet, dictSet, List.find?]

/-- In a token-distinct state list, searching for the token of a member
finds exactly that member. -/
theorem find_token_of_mem (l : List State) (s : State)
    (hnd : (l.map State.token).Nodup) (hm : s ∈ l) :
    l.find? (fun x => x.token == s.token) = some s := by
  induction l with
  | nil => cases hm
  | cons a rest ih =>
    simp only [List.map_cons, List.nodup_cons] at hnd
    rcases List.mem_cons.mp hm with h | h
    · subst h
      simp [List.find?]
    · have hne : (a.token == s.token) = false := by
        apply beq_eq_false_iff_ne.mpr
        intro he
        exact hnd.1 (he ▸ List.mem_map_of_mem State.token h)
      simp only [List.find?, hne]
      exact ih hnd.2 h

/-- A successful `find?` over a token predicate returns a member whose token
is the searched one. -/
theorem find_token_mem (l : List State) (t : String) (s : State)
    (h : l.find? (fun x => x.token == t) = some s) :
    s ∈ l ∧ s.token = t :=
  ⟨List.mem_of_find?_eq_some h, by
    have := List.find?_some h
    exact beq_iff_eq.mp this⟩

/-- Successful inbound conversion always yields a state value. -/
theorem to_python_ok_state (f : StateFlowField) (v w : Value)
    (h : f.to_python v = .ok w) : ∃ st : State, w = .state st := by
  cases v with
  | state st =>
    exact ⟨st, by simpa [StateFlowField.to_python] using h.symm⟩
  | none =>
    simp [StateFlowField.to_python, Flow.get_state, Except.map] at h
  | intV n =>
    simp [StateFlowField.to_python, Flow.get_state, Except.map] at h
  | str s =>
    simp only [StateFlowField.to_python, Flow.get_state] at h
    cases hf : f.flow.states.find? (fun x => x.token == s) with
    | none => rw [hf] at h; cases h
    | some st =>
      rw [hf] at h
      exact ⟨st, by simpa [Except.map] using h.symm⟩

/-! ### Claim theorems -/

/-- C2: the Coercing Accessor stores `field.to_python(raw_value)` into the
private per-instance storage on write; an instance read returns the stored
value verbatim (whatever it is, with no further Flow lookup); a class-level
read (no instance) returns the descriptor object itself, never a value. -/
theorem C2_creator_accessor (c : Creator) (d : AttrDict) (v : Value) :
    (∀ coerced : Value, c.field.to_python v = .ok coerced →
       c.set d v = .ok (dictSet d c.field.name coerced)) ∧
    (∀ w : Value, c.get (some (dictSet d c.field.name w)) = .ok (.val w)) ∧
    c.get Option.none = .ok (.descr c) := by
  refine ⟨?_, ?_, rfl⟩
  · intro coerced h
    simp [Creator.set, h, Except.map]
  · intro w
    simp [Creator.get, dictGet_dictSet]

/-- C2 witness: the accessor of `fieldA` at concrete inputs. -/
theorem C2_creator_accessor_witness :
    creatorA.set [] (.str "draft") =
      .ok (dictSet [] creatorA.field.name (.state draftState)) ∧
    creatorA.get (some (dictSet [] creatorA.field.name (.str "raw"))) =
      .ok (.val (.str "raw")) ∧
    creatorA.get Option.none = .ok (.descr creatorA) :=
  ⟨(C2_creator_accessor creatorA [] (.str "draft")).1 (.state draftState) rfl,
   (C2_creator_accessor creatorA [] (.str "draft")).2.1 (.str "raw"),
   (C2_creator_accessor creatorA [] (.str "draft")).2.2⟩

/-- C4: inbound conversion is idempotent: a state already resolved passes
through `to_python` unchanged, and whenever `to_python` succeeds on any value
(for instance a valid token), converting the result again returns it
unchanged. -/
theorem C4_to_python_idempotent :
    (∀ (f : StateFlowField) (st : State),
       f.to_python (.state st) = .ok (.state st)) ∧
    (∀ (f : StateFlowField) (v w : Value),
       f.to_python v = .ok w → f.to_python w = .ok w) := by
  refine ⟨fun f st => rfl, fun f v w h => ?_⟩
  obtain ⟨st, rfl⟩ := to_python_ok_state f v w h
  rfl

/-- C4 witness: idempotence at the token "draft" for `fieldAB`. -/
theorem C4_to_python_idempotent_witness :
    fieldAB.to_python (.state publishedState) = .ok (.state publishedState) ∧
    fieldAB.to_python (.state draftState) = .ok (.state draftState) :=
  ⟨C4_to_python_idempotent.1 fieldAB publishedState,
   C4_to_python_idempotent.2 fieldAB (.str "draft") (.state draftState) rfl⟩

/-- C5: every value that is neither a state nor a token declared by the Flow
of the field makes `to_python` fail with the lookup error, and the same error
propagates through the write path of the accessor — it is not caught and no
default is stored. -/
theorem C5_unknown_token_lookup_error (c : Creator) (v : Value)
    (hstate : ∀ st : State, v ≠ .state st)
    (htok : ∀ st ∈ c.field.flow.states, v ≠ .str st.token) :
    c.field.to_python v = .error .lookupError ∧
    ∀ d : AttrDict, c.set d v = .error .lookupError := by
  have hto : c.field.to_python v = .error .lookupError := by
    cases v with
    | state st => exact absurd rfl (hstate st)
    | none => rfl
    | intV n => rfl
    | str s =>
      simp only [StateFlowField.to_python, Flow.get_state]
      cases hf : c.field.flow.states.find? (fun x => x.token == s) with
      | none => simp [hf, Except.map]
      | some st =>
        obtain ⟨hmem, htokeq⟩ := find_token_mem _ _ _ hf
        exact absurd (by rw [htokeq]) (htok st hmem)
  exact ⟨hto, fun d => by simp [Creator.set, hto, Except.map]⟩

/-- C5 witness: the unknown token "bogus" fails the lookup on `fieldAB` and
the failure propagates through the accessor write. -/
theorem C5_unknown_token_lookup_error_witness :
    fieldAB.to_python (.str "bogus") = .error .lookupError ∧
    creatorAB.set [] (.str "bogus") = .error .lookupError :=
  have h := C5_unknown_token_lookup_error creatorAB (.str "bogus")
    (fun _ hv => Value.noConfusion hv) (by decide)
  ⟨h.1, h.2 []⟩

/-- C6: constructing the field with a missing flow raises the configuration
`ValueError` immediately inside the constructor, for every import
environment and naming arguments — flow resolution is never consulted. -/
theorem C6_init_missing_flow (env : ImportEnv) (vn nm : Option String) :
    StateFlowField.init env vn nm Option.none =
      .error (.valueError "StateFlowField need to have defined flow") := rfl

/-- C3: outbound conversion (`get_prep_value`) followed by inbound
conversion (`to_python`) round-trips every state declared in the
token-distinct Flow of the field. -/
theorem C3_round_trip (f : StateFlowField) (s : State)
    (hwf : f.flow.WF) (hmem : s ∈ f.flow.states) :
    f.to_python (scalarToValue (f.get_prep_value (.state s))) = .ok (.state s) := by
  simp only [StateFlowField.get_prep_value, State.get_value, scalarToValue,
    StateFlowField.to_python, Flow.get_state]
  rw [find_token_of_mem f.flow.states s hwf hmem]
  rfl

/-- C3 witness: the round-trip at the draft state of `fieldAB`. -/
theorem C3_round_trip_witness :
    fieldAB.flow.WF ∧ draftState ∈ fieldAB.flow.states ∧
    fieldAB.to_python (scalarToValue (fieldAB.get_prep_value (.state draftState))) =
      .ok (.state draftState) :=
  ⟨by decide, by decide, C3_round_trip fieldAB draftState (by decide) (by decide)⟩

/-- C1 counterexample: assigning through the accessor a state belonging to
a different Flow succeeds and stores that foreign state — a value that is
neither `None` nor a state of the Flow of the field — refuting the claim
as stated. -/
theorem C1_slot_invariant_counterexample :
    creatorA.set [] (.state publishedState) =
      .ok [(some "state", .state publishedState)] ∧
    ¬ (Value.state publishedState = Value.none ∨
       ∃ st ∈ creatorA.field.flow.states, Value.state publishedState = .state st) := by
  exact ⟨rfl, by decide⟩

/-- C1 amended: after every successful write through the accessor, the slot
holds a state value — never the raw assigned token string, never a
non-state value — and that state is a member of the Flow of the field
unless the assigned value was already a state, which is stored unchanged
(even when it belongs to a different Flow). -/
theorem C1_slot_invariant_amended (c : Creator) (d : AttrDict) (v : Value)
    (d' : AttrDict) (h : c.set d v = .ok d') :
    ∃ st : State, dictGet d' c.field.name = some (.state st) ∧
      (∀ st0 : State, v = .state st0 → st = st0) ∧
      ((∀ st0 : State, v ≠ .state st0) → st ∈ c.field.flow.states) := by
  cases hto : c.field.to_python v with
  | error e => simp [Creator.set, hto, Except.map] at h
  | ok w =>
    obtain ⟨st, rfl⟩ := to_python_ok_state c.field v w hto
    have hd : d' = dictSet d c.field.name (.state st) := by
      simp only [Creator.set, hto, Except.map, Except.ok.injEq] at h
      exact h.symm
    subst hd
    refine ⟨st, dictGet_dictSet _ _ _, ?_, ?_⟩
    · intro st0 hv
      subst hv
      simp only [StateFlowField.to_python, Except.ok.injEq, Value.state.injEq] at hto
      exact hto.symm
    · intro hns
      cases v with
      | state st0 => exact absurd rfl (hns st0)
      | none => simp [StateFlowField.to_python, Flow.get_state, Except.map] at hto
      | intV n => simp [StateFlowField.to_python, Flow.get_state, Except.map] at hto
      | str s =>
        simp only [StateFlowField.to_python, Flow.get_state] at hto
        cases hf : c.field.flow.states.find? (fun x => x.token == s) with
        | none => rw [hf] at hto; simp [Except.map] at hto
        | some st1 =>
          rw [hf] at hto
          have hst : st1 = st := by simpa [Except.map] using hto
          exact hst ▸ (find_token_mem _ _ _ hf).1

/-- C1 amended witness: assigning the valid token "draft" on `fieldA`. -/
theorem C1_slot_invariant_amended_witness :
    ∃ st : State,
      dictGet [(some "state", Value.state draftState)] creatorA.field.name =
        some (.state st) ∧
      (∀ st0 : State, Value.str "draft" = .state st0 → st = st0) ∧
      ((∀ st0 : State, Value.str "draft" ≠ .state st0) →
        st ∈ creatorA.field.flow.states) :=
  C1_slot_invariant_amended creatorA [] (.str "draft")
    [(some "state", .state draftState)] rfl

/-- C8 counterexample: the unset entry of the choice list built by
`formfield` is labelled "----" in the code, so for the draft/published Flow
the list is not the one written in the claim. -/
theorem C8_formfield_choices_counterexample :
    fieldAB.flow.state_choices = [("draft", "Draft"), ("published", "Published")] ∧
    fieldAB.formfield_choices ≠
      [(Option.none, "— unset —"), (some "draft", "Draft"),
       (some "published", "Published")] := by
  exact ⟨rfl, by decide⟩

/-- C8 amended: for every field whose Flow declares exactly the
draft/published choice pairs, the choice list handed to the rendering
collaborator is exactly the (None, "----") unset entry followed by
`Flow.state_choices` in order. -/
theorem C8_formfield_choices_amended (f : StateFlowField)
    (h : f.flow.state_choices = [("draft", "Draft"), ("published", "Published")]) :
    f.formfield_choices =
      [(Option.none, "----"), (some "draft", "Draft"),
       (some "published", "Published")] := by
  simp [StateFlowField.formfield_choices, h]

/-- C8 amended witness: the choice list of `fieldAB`. -/
theorem C8_formfield_choices_amended_witness :
    fieldAB.formfield_choices =
      [(Option.none, "----"), (some "draft", "Draft"),
       (some "published", "Published")] :=
  C8_formfield_choices_amended fieldAB rfl

/-- When the character never occurs, `rindex` finds nothing. -/
theorem rindex_eq_none (cs : List Char) (c : Char) (h : c ∉ cs) :
    rindex cs c = Option.none := by
  induction cs with
  | nil => rfl
  | cons a rest ih =>
    simp only [List.mem_cons, not_or] at h
    simp [rindex, ih h.2, Ne.symm h.1]

/-- When the suffix after an occurrence is free of the character, `rindex`
returns the index of that occurrence. -/
theorem rindex_append (a b : List Char) (c : Char) (h : c ∉ b) :
    rindex (a ++ c :: b) c = some a.length := by
  induction a with
  | nil => simp [rindex, rindex_eq_none b c h]
  | cons x rest ih => simp [rindex, ih]

/-- Taking up to the split point recovers the prefix; dropping past the
separator recovers the suffix. -/
theorem take_drop_split (a b : List Char) (c : Char) :
    (a ++ c :: b).take a.length = a ∧ (a ++ c :: b).drop (a.length + 1) = b := by
  constructor
  · exact List.take_left a (c :: b)
  · rw [List.append_cons]
    have hlen : a.length + 1 = (a ++ [c]).length := by simp
    rw [hlen, List.drop_left]

/-- Rebuilding a string from its character list is the identity. -/
theorem stringMk_toList (s : String) : String.mk s.toList = s := rfl

/-- C7: resolving a reference that is already a Flow class returns it
unchanged paired with its string representation; any other reference is
treated as a locator, split at its last dot into namespace and symbol, the
namespace imported and the symbol fetched, the result paired with the
original locator; import and attribute-lookup failures propagate
unmodified. -/
theorem C7_resolve_flow (env : ImportEnv) :
    (∀ f : Flow, resolve_flow env (.cls f) = .ok (f, strOfFlowCls f)) ∧
    (∀ (s mod cls : String) (m : List (String × Flow)) (fl : Flow),
       s.toList = mod.toList ++ '.' :: cls.toList → '.' ∉ cls.toList →
       env.import_module mod = .ok m → getattrFlow m cls = .ok fl →
       resolve_flow env (.strRef s) = .ok (fl, s)) ∧
    (∀ (s mod cls : String),
       s.toList = mod.toList ++ '.' :: cls.toList → '.' ∉ cls.toList →
       env.import_module mod = .error .importError →
       resolve_flow env (.strRef s) = .error .importError) ∧
    (∀ (s mod cls : String) (m : List (String × Flow)),
       s.toList = mod.toList ++ '.' :: cls.toList → '.' ∉ cls.toList →
       env.import_module mod = .ok m →
       getattrFlow m cls = .error .attributeError →
       resolve_flow env (.strRef s) = .error .attributeError) := by
  have hload : ∀ (s mod cls : String),
      s.toList = mod.toList ++ '.' :: cls.toList → '.' ∉ cls.toList →
      load_flow env s = env.import_module mod >>= fun m => getattrFlow m cls := by
    intro s mod cls hsplit hcls
    simp only [load_flow, hsplit, rindex_append _ _ _ hcls,
      (take_drop_split mod.toList cls.toList '.').1,
      (take_drop_split mod.toList cls.toList '.').2, stringMk_toList]
  refine ⟨fun f => rfl, ?_, ?_, ?_⟩
  · intro s mod cls m fl hsplit hcls him hat
    show (load_flow env s).map (fun fl => (fl, (FlowRef.strRef s).asStr)) = _
    rw [hload s mod cls hsplit hcls, him]
    show (getattrFlow m cls).map (fun fl => (fl, (FlowRef.strRef s).asStr)) = _
    rw [hat]
    rfl
  · intro s mod cls hsplit hcls him
    show (load_flow env s).map (fun fl => (fl, (FlowRef.strRef s).asStr)) = _
    rw [hload s mod cls hsplit hcls, him]
    rfl
  · intro s mod cls m hsplit hcls him hat
    show (load_flow env s).map (fun fl => (fl, (FlowRef.strRef s).asStr)) = _
    rw [hload s mod cls hsplit hcls, him]
    show (getattrFlow m cls).map (fun fl => (fl, (FlowRef.strRef s).asStr)) = _
    rw [hat]
    rfl

/-- C7 witness: `envAB` resolves the class reference and the locator
"myapp.flows.PostFlow"; an empty environment fails the import; a missing
symbol fails the attribute lookup. -/
theorem C7_resolve_flow_witness :
    resolve_flow envAB (.cls flowAB) = .ok (flowAB, strOfFlowCls flowAB) ∧
    resolve_flow envAB (.strRef "myapp.flows.PostFlow") =
      .ok (flowAB, "myapp.flows.PostFlow") ∧
    resolve_flow ⟨[]⟩ (.strRef "myapp.flows.PostFlow") = .error .importError ∧
    resolve_flow envAB (.strRef "myapp.flows.Missing") = .error .attributeError :=
  ⟨(C7_resolve_flow envAB).1 flowAB,
   (C7_resolve_flow envAB).2.1 "myapp.flows.PostFlow" "myapp.flows" "PostFlow"
     [("PostFlow", flowAB)] flowAB (by decide) (by decide) rfl rfl,
   (C7_resolve_flow ⟨[]⟩).2.2.1 "myapp.flows.PostFlow" "myapp.flows" "PostFlow"
     (by decide) (by decide) rfl,
   (C7_resolve_flow envAB).2.2.2 "myapp.flows.Missing" "myapp.flows" "Missing"
     [("PostFlow", flowAB)] (by decide) (by decide) rfl rfl⟩

/-- C10: a locator string containing no dot makes resolution — and hence
field construction — fail with the ValueError of the last-separator search
("substring not found"), not with the configuration error; and every
non-class, non-string reference falls through into the same locator branch,
where the missing `rindex` attribute raises `AttributeError`. -/
theorem C10_dotless_locator (env : ImportEnv) :
    (∀ s : String, '.' ∉ s.toList →
       resolve_flow env (.strRef s) = .error (.valueError "substring not found")) ∧
    (∀ (vn nm : Option String) (s : String), '.' ∉ s.toList →
       StateFlowField.init env vn nm (some (.strRef s)) =
         .error (.valueError "substring not found")) ∧
    (∀ n : Int,
       resolve_flow env (.other n) =
         (load_flow_ref env (.other n)).map
           (fun fl => (fl, (FlowRef.other n).asStr)) ∧
       resolve_flow env (.other n) = .error .attributeError) := by
  have hres : ∀ s : String, '.' ∉ s.toList →
      resolve_flow env (.strRef s) = .error (.valueError "substring not found") := by
    intro s hs
    show (load_flow env s).map (fun fl => (fl, (FlowRef.strRef s).asStr)) = _
    unfold load_flow
    rw [rindex_eq_none s.toList '.' hs]
    rfl
  refine ⟨hres, ?_, fun n => ⟨rfl, rfl⟩⟩
  intro vn nm s hs
  simp only [StateFlowField.init, hres s hs]
  rfl

/-- C10 witness: the dotless locator "PostFlow" and the integer reference 7
on `envAB`. -/
theorem C10_dotless_locator_witness :
    resolve_flow envAB (.strRef "PostFlow") =
      .error (.valueError "substring not found") ∧
    StateFlowField.init envAB Option.none Option.none (some (.strRef "PostFlow")) =
      .error (.valueError "substring not found") ∧
    resolve_flow envAB (.other 7) = .error .attributeError :=
  ⟨(C10_dotless_locator envAB).1 "PostFlow" (by decide),
   (C10_dotless_locator envAB).2.1 Option.none Option.none "PostFlow" (by decide),
   ((C10_dotless_locator envAB).2.2 7).2⟩

/-- Tokens in the normalized selected list are exactly the tokens of the
state values among the selected values. -/
theorem mem_normalized_selected (selected : List Value) (t : String) :
    t ∈ selected.filterMap (fun v => match v with
        | Value.state st => some st.get_value
        | _ => Option.none) ↔
      ∃ st : State, Value.state st ∈ selected ∧ t = st.get_value := by
  rw [List.mem_filterMap]
  constructor
  · rintro ⟨v, hv, hm⟩
    cases v with
    | state st => exact ⟨st, hv, (Option.some.inj hm).symm⟩
    | none => cases hm
    | str s => cases hm
    | intV n => cases hm
  · rintro ⟨st, hst, rfl⟩
    exact ⟨.state st, hst, rfl⟩

/-- Dropping the non-state selected values does not change the normalized
token list. -/
theorem filterMap_state_filter (selected : List Value) :
    (selected.filter (fun v => match v with
       | Value.state _ => true
       | _ => false)).filterMap (fun v => match v with
       | Value.state st => some st.get_value
       | _ => Option.none) =
    selected.filterMap (fun v => match v with
       | Value.state st => some st.get_value
       | _ => Option.none) := by
  induction selected with
  | nil => rfl
  | cons v rest ih =>
    cases v <;> simp [List.filter, List.filterMap, ih]

/-- C9: the rendering path reduces every selected state to its token: an
option is marked selected exactly when some selected state carries its
(stringified) value as token — a token comparison, independent of object
identity — and selected values that are not states are ignored (removing
them changes nothing in the rendered output). -/
theorem C9_render_options_selected
    (self_choices choices : List (Option String × String)) (selected : List Value) :
    (∀ opt ∈ StateWidget.render_options self_choices choices selected,
       (opt.selected = true ↔
         ∃ st : State, Value.state st ∈ selected ∧ opt.value = st.get_value)) ∧
    StateWidget.render_options self_choices choices selected =
      StateWidget.render_options self_choices choices
        (selected.filter (fun v => match v with
          | Value.state _ => true
          | _ => false)) := by
  constructor
  · intro opt hopt
    simp only [StateWidget.render_options, List.mem_map] at hopt
    obtain ⟨p, hp, rfl⟩ := hopt
    simp only [decide_eq_true_eq]
    exact mem_normalized_selected selected (force_unicode_opt p.1)
  · simp only [StateWidget.render_options, filterMap_state_filter]

/-- C9 witness: with the draft state and a junk string selected, the draft
option of `fieldAB` is marked selected by its token, and the junk value is
ignored. -/
theorem C9_render_options_selected_witness :
    ((⟨"draft", "Draft", true⟩ : RenderedOption).selected = true ↔
      ∃ st : State, Value.state st ∈ [Value.state draftState, Value.str "junk"] ∧
        (⟨"draft", "Draft", true⟩ : RenderedOption).value = st.get_value) ∧
    StateWidget.render_options [] fieldAB.formfield_choices
        [Value.state draftState, Value.str "junk"] =
      StateWidget.render_options [] fieldAB.formfield_choices
        ([Value.state draftState, Value.str "junk"].filter (fun v => match v with
          | Value.state _ => true
          | _ => false)) :=
  ⟨(C9_render_options_selected [] fieldAB.formfield_choices
      [Value.state draftState, Value.str "junk"]).1 ⟨"draft", "Draft", true⟩
      (by decide),
   (C9_render_options_selected [] fieldAB.formfield_choices
      [Value.state draftState, Value.str "junk"]).2⟩

end Stateflow
